import Mathlib

/-
Shallow embedding of the real-time telemetry client (`WebSocketService` in
src/api.js) of the Digital Twin Platform repository, together with proofs
about its connection/reconnection state machine, subscription registry and
message dispatch.

Modelling conventions:
- JavaScript values decoded by `JSON.parse` are modelled by `Api.Json`
  (numbers restricted to integers; no claim depends on float payloads).
- A subscriber callback is modelled by an identity tag plus a flag saying
  whether invoking it throws; `===` comparison of function references in
  `Array.prototype.indexOf` becomes decidable equality on that identity.
- The mutable service object is the record `Api.WS`; each public method and
  each transport handler (`onopen`, `onmessage`, `onclose`, `onerror`) is one
  `Api.Action` processed by the pure transition function `Api.step`, which
  also returns the observable side effects (`Api.Out`) in program order.
- `setTimeout(() => this.connect(), d)` is modelled by appending `d` to a
  FIFO of pending timers; the `Api.Action.timerFire` event pops the oldest
  pending timer and runs `connect()`, exactly as the scheduled closure does.
- Crucially, the `onclose`/`onopen` handlers in the source never read
  `this.ws`, so a close signal delivered by an already-discarded transport
  (for instance after `disconnect()`) runs the same handler body; the model
  therefore processes signal actions independently of `ws` being present.
-/

namespace Api

/-- JSON values as produced by a successful call of JSON.parse on an inbound
frame (integers suffice for every number appearing in the claims). -/
inductive Json where
  | null : Json
  | bool (b : Bool) : Json
  | num (n : Int) : Json
  | str (s : String) : Json
  | arr (elems : List Json) : Json
  | obj (fields : List (String × Json)) : Json

/-- Property access `v.k` in JavaScript: `none` models `undefined`. -/
def jsGet : Json → String → Option Json
  | .obj fields, k => fields.lookup k
  | _, _ => none

/-- JavaScript truthiness of a defined value, as tested by `if (data.type)`. -/
def truthy : Json → Bool
  | .null => false
  | .bool b => b
  | .num n => n != 0
  | .str s => s != ""
  | .arr _ => true
  | .obj _ => true

/-- String escaping performed by JSON.stringify on string contents. -/
def jsonEscape (s : String) : String :=
  s.foldl (fun acc c =>
    if c = '"' then acc ++ "\\\""
    else if c = '\\' then acc ++ "\\\\"
    else if c = '\n' then acc ++ "\\n"
    else if c = '\r' then acc ++ "\\r"
    else if c = '\t' then acc ++ "\\t"
    else acc.push c) ""

mutual

/-- Serialization JSON.stringify, as used by `send` (src/api.js line 221). -/
def stringify : Json → String
  | .null => "null"
  | .bool true => "true"
  | .bool false => "false"
  | .num n => toString n
  | .str s => "\"" ++ jsonEscape s ++ "\""
  | .arr xs => "[" ++ stringifyElems xs ++ "]"
  | .obj fs => "\x7b" ++ stringifyFields fs ++ "\x7d"

/-- Comma-joined serialization of array elements. -/
def stringifyElems : List Json → String
  | [] => ""
  | [x] => stringify x
  | x :: y :: rest => stringify x ++ "," ++ stringifyElems (y :: rest)

/-- Comma-joined serialization of object fields. -/
def stringifyFields : List (String × Json) → String
  | [] => ""
  | [(k, v)] => "\"" ++ jsonEscape k ++ "\":" ++ stringify v
  | (k, v) :: f :: rest =>
      "\"" ++ jsonEscape k ++ "\":" ++ stringify v ++ "," ++ stringifyFields (f :: rest)

end

/-- A subscriber callback: `id` models the function reference identity used
by `indexOf` (strict equality), `throws` says whether invoking it raises. -/
structure Callback where
  id : Nat
  throws : Bool
deriving DecidableEq

/-- Key comparison used by Map (SameValueZero): primitive values compare by
value; objects and arrays compare by reference identity, so a freshly decoded
`data.type` object never equals a key already stored in the Map — modelled as
never-equal. Every key actually stored via `on` is a string. -/
def keyEq : Json → Json → Bool
  | .null, .null => true
  | .bool a, .bool b => a == b
  | .num a, .num b => a == b
  | .str a, .str b => a == b
  | _, _ => false

/-- The subscription registry `this.listeners`, a Map from event key to the
ordered array of callbacks. Keys are `Json` because `emit(data.type, …)` may
be keyed by any decoded value; `on`/`off` always pass a string key. -/
abbrev Listeners := List (Json × List Callback)

/-- Association lookup under the Map key comparison. -/
def lookupKey : Listeners → Json → Option (List Callback)
  | [], _ => none
  | (k', v) :: rest, k => if keyEq k' k then some v else lookupKey rest k

/-- Map.prototype.has. -/
def mapHas (m : Listeners) (k : Json) : Bool :=
  (lookupKey m k).isSome

/-- Map.prototype.get (`none` models `undefined`). -/
def mapGet (m : Listeners) (k : Json) : Option (List Callback) :=
  lookupKey m k

/-- Map.prototype.set: overwrite in place when the key exists (insertion
order preserved), append a new entry otherwise. -/
def mapSet (m : Listeners) (k : Json) (v : List Callback) : Listeners :=
  match m with
  | [] => [(k, v)]
  | (k', v') :: rest =>
      if keyEq k' k then (k, v) :: rest else (k', v') :: mapSet rest k v

/-- Method `on(event, callback)` (src/api.js lines 190-195): ensure the entry
exists, then push the callback at the end of its array. -/
def onMap (m : Listeners) (e : Json) (cb : Callback) : Listeners :=
  let m1 := if mapHas m e then m else mapSet m e []
  mapSet m1 e ((mapGet m1 e).getD [] ++ [cb])

/-- Method `off(event, callback)` (src/api.js lines 197-205): when the entry
exists and `indexOf` finds the callback (`index > -1`, i.e. membership),
`splice(index, 1)` removes exactly the first strictly-equal occurrence, which
is `List.erase` on the identity-carrying callbacks. -/
def offMap (m : Listeners) (e : Json) (cb : Callback) : Listeners :=
  if mapHas m e then
    let callbacks := (mapGet m e).getD []
    if cb ∈ callbacks then mapSet m e (callbacks.erase cb) else m
  else m

/-- Observable side effects of one processed action, in program order. -/
inductive Out where
  | created : Out
  | closedT : Out
  | emitEv (key : Json) (arg : Option Json) : Out
  | invoked (cbId : Nat) (key : Json) (arg : Option Json) : Out
  | cbError (cbId : Nat) : Out
  | scheduled (delayMs : Nat) : Out
  | wireSent (frame : String) : Out
  | warned : Out
  | parseError : Out

/-- The `forEach` loop inside `emit` (src/api.js lines 209-215): each callback
is invoked; a throwing callback is caught (`cbError` models the
`console.error` in the catch) and iteration continues. -/
def invokeAll (cbs : List Callback) (key : Json) (arg : Option Json) : List Out :=
  match cbs with
  | [] => []
  | cb :: rest =>
      (Out.invoked cb.id key arg :: if cb.throws then [Out.cbError cb.id] else [])
        ++ invokeAll rest key arg

/-- Method `emit(event, data)` (src/api.js lines 207-217): the `emitEv` marker
records the call itself; the body runs only when the Map has the key. -/
def emitOuts (m : Listeners) (key : Json) (arg : Option Json) : List Out :=
  Out.emitEv key arg ::
    (if mapHas m key then invokeAll ((mapGet m key).getD []) key arg else [])

/-- readyState of the underlying WebSocket object. -/
inductive ReadyState where
  | CONNECTING : ReadyState
  | OPEN : ReadyState
  | CLOSING : ReadyState
  | CLOSED : ReadyState
deriving DecidableEq

/-- The mutable state of a `WebSocketService` instance plus the FIFO of
pending reconnect timers scheduled by `setTimeout`. -/
structure WS where
  ws : Option ReadyState
  listeners : Listeners
  reconnectAttempts : Nat
  maxReconnectAttempts : Nat
  reconnectDelay : Nat
  pending : List Nat

/-- State produced by the constructor (src/api.js lines 120-126). -/
def initWS : WS :=
  { ws := none, listeners := [], reconnectAttempts := 0,
    maxReconnectAttempts := 5, reconnectDelay := 1000, pending := [] }

/-- One externally observable step: a public method call, a transport signal
delivered to a handler, or a pending reconnect timer firing. A message signal
carries the result of JSON.parse on the frame (`none` = parse failure). -/
inductive Action where
  | connect : Action
  | disconnect : Action
  | send (payload : Json) : Action
  | on (event : String) (cb : Callback) : Action
  | off (event : String) (cb : Callback) : Action
  | sigOpen : Action
  | sigMessage (frame : Option Json) : Action
  | sigClose : Action
  | sigError : Action
  | timerFire : Action

/-- Method `attemptReconnect()` (src/api.js lines 176-188). -/
def attemptReconnect (s : WS) : WS × List Out :=
  if s.reconnectAttempts < s.maxReconnectAttempts then
    let a := s.reconnectAttempts + 1
    ({ s with reconnectAttempts := a,
              pending := s.pending ++ [s.reconnectDelay * a] },
     [Out.scheduled (s.reconnectDelay * a)])
  else
    (s, emitOuts s.listeners (Json.str "maxReconnectAttemptsReached") none)

/-- Method `connect()` (src/api.js lines 128-167): unconditionally constructs
a new transport (readyState CONNECTING) and overwrites `this.ws`; handler
attachment is implicit in how signal actions are processed. -/
def connectFn (s : WS) : WS × List Out :=
  ({ s with ws := some ReadyState.CONNECTING }, [Out.created])

/-- The transition function: each action is processed exactly as the
corresponding method body or handler body in src/api.js. -/
def step (s : WS) (a : Action) : WS × List Out :=
  match a with
  | .connect => connectFn s
  | .disconnect =>
      match s.ws with
      | some _ => ({ s with ws := none }, [Out.closedT])
      | none => (s, [])
  | .send d =>
      if s.ws = some ReadyState.OPEN then (s, [Out.wireSent (stringify d)])
      else (s, [Out.warned])
  | .on e cb => ({ s with listeners := onMap s.listeners (Json.str e) cb }, [])
  | .off e cb => ({ s with listeners := offMap s.listeners (Json.str e) cb }, [])
  | .sigOpen =>
      let s1 := { s with ws := s.ws.map (fun _ => ReadyState.OPEN),
                         reconnectAttempts := 0 }
      (s1, emitOuts s1.listeners (Json.str "connected") none)
  | .sigMessage none => (s, [Out.parseError])
  | .sigMessage (some d) =>
      let outsTyped :=
        match jsGet d "type" with
        | some t => if truthy t then emitOuts s.listeners t (jsGet d "data") else []
        | none => []
      (s, emitOuts s.listeners (Json.str "message") (some d) ++ outsTyped)
  | .sigClose =>
      let s1 := { s with ws := s.ws.map (fun _ => ReadyState.CLOSED) }
      let r := attemptReconnect s1
      (r.1, emitOuts s1.listeners (Json.str "disconnected") none ++ r.2)
  | .sigError => (s, emitOuts s.listeners (Json.str "error") none)
  | .timerFire =>
      match s.pending with
      | [] => (s, [])
      | _ :: rest => connectFn { s with pending := rest }

/-- Fold a trace of actions, accumulating the side effects in order. -/
def run (s : WS) : List Action → WS × List Out
  | [] => (s, [])
  | a :: rest =>
      let r1 := step s a
      let r2 := run r1.1 rest
      (r2.1, r1.2 ++ r2.2)

/-- The emit calls occurring in a side-effect list, in order. -/
def emitsOf (outs : List Out) : List (Json × Option Json) :=
  outs.filterMap fun o =>
    match o with
    | .emitEv k a => some (k, a)
    | _ => none

/-- The callback invocations occurring in a side-effect list, in order. -/
def invokedIds (outs : List Out) : List Nat :=
  outs.filterMap fun o =>
    match o with
    | .invoked i _ _ => some i
    | _ => none

/-- The reconnect delays scheduled in a side-effect list, in order. -/
def scheduledDelays (outs : List Out) : List Nat :=
  outs.filterMap fun o =>
    match o with
    | .scheduled d => some d
    | _ => none

/-- How many transports were instantiated in a side-effect list. -/
def createdCount (outs : List Out) : Nat :=
  outs.countP fun o =>
    match o with
    | .created => true
    | _ => false

/-- How many emit calls in a side-effect list carry the given key. -/
def countEmit (outs : List Out) (k : Json) : Nat :=
  (emitsOf outs).countP (fun p => keyEq p.1 k)


/-! Observation lemmas about side-effect lists. -/

theorem emitsOf_append (o1 o2 : List Out) :
    emitsOf (o1 ++ o2) = emitsOf o1 ++ emitsOf o2 :=
  List.filterMap_append _ _ _

theorem invokedIds_append (o1 o2 : List Out) :
    invokedIds (o1 ++ o2) = invokedIds o1 ++ invokedIds o2 :=
  List.filterMap_append _ _ _

theorem scheduledDelays_append (o1 o2 : List Out) :
    scheduledDelays (o1 ++ o2) = scheduledDelays o1 ++ scheduledDelays o2 :=
  List.filterMap_append _ _ _

theorem createdCount_append (o1 o2 : List Out) :
    createdCount (o1 ++ o2) = createdCount o1 + createdCount o2 :=
  List.countP_append _ _ _

theorem countEmit_append (o1 o2 : List Out) (k : Json) :
    countEmit (o1 ++ o2) k = countEmit o1 k + countEmit o2 k := by
  simp [countEmit, emitsOf_append, List.countP_append]

theorem mapGet_eq_none_of_not_has (m : Listeners) (k : Json)
    (h : mapHas m k = false) : mapGet m k = none := by
  cases hl : lookupKey m k with
  | none => simp [mapGet, hl]
  | some v => simp [mapHas, hl] at h

theorem mem_invokeAll {o : Out} {cbs : List Callback} {k : Json} {a : Option Json}
    (h : o ∈ invokeAll cbs k a) :
    (∃ cb : Callback, o = Out.invoked cb.id k a) ∨ (∃ i : Nat, o = Out.cbError i) := by
  induction cbs with
  | nil => simp [invokeAll] at h
  | cons cb rest ih =>
      cases hcb : cb.throws <;> simp [invokeAll, hcb] at h
      · rcases h with rfl | h
        · exact Or.inl ⟨cb, rfl⟩
        · exact ih h
      · rcases h with rfl | rfl | h
        · exact Or.inl ⟨cb, rfl⟩
        · exact Or.inr ⟨cb.id, rfl⟩
        · exact ih h

theorem emitsOf_invokeAll (cbs : List Callback) (k : Json) (a : Option Json) :
    emitsOf (invokeAll cbs k a) = [] := by
  rw [emitsOf, List.filterMap_eq_nil_iff]
  intro o ho
  rcases mem_invokeAll ho with ⟨cb, rfl⟩ | ⟨i, rfl⟩ <;> rfl

theorem invokedIds_invokeAll (cbs : List Callback) (k : Json) (a : Option Json) :
    invokedIds (invokeAll cbs k a) = cbs.map Callback.id := by
  induction cbs with
  | nil => rfl
  | cons cb rest ih =>
      cases hcb : cb.throws <;> simp [invokeAll, invokedIds, hcb] <;>
        simpa [invokedIds] using ih

theorem scheduledDelays_invokeAll (cbs : List Callback) (k : Json) (a : Option Json) :
    scheduledDelays (invokeAll cbs k a) = [] := by
  rw [scheduledDelays, List.filterMap_eq_nil_iff]
  intro o ho
  rcases mem_invokeAll ho with ⟨cb, rfl⟩ | ⟨i, rfl⟩ <;> rfl

theorem createdCount_invokeAll (cbs : List Callback) (k : Json) (a : Option Json) :
    createdCount (invokeAll cbs k a) = 0 := by
  rw [createdCount, List.countP_eq_zero]
  intro o ho
  rcases mem_invokeAll ho with ⟨cb, rfl⟩ | ⟨i, rfl⟩ <;> simp

theorem emitOuts_eq_of_has {m : Listeners} {k : Json} (a : Option Json)
    (hm : mapHas m k = true) :
    emitOuts m k a = Out.emitEv k a :: invokeAll ((mapGet m k).getD []) k a := by
  simp [emitOuts, hm]

theorem emitOuts_eq_of_not_has {m : Listeners} {k : Json} (a : Option Json)
    (hm : mapHas m k = false) :
    emitOuts m k a = [Out.emitEv k a] := by
  simp [emitOuts, hm]

theorem emitsOf_emitOuts (m : Listeners) (k : Json) (a : Option Json) :
    emitsOf (emitOuts m k a) = [(k, a)] := by
  cases hm : mapHas m k
  · rw [emitOuts_eq_of_not_has a hm]; rfl
  · rw [emitOuts_eq_of_has a hm,
        show emitsOf (Out.emitEv k a :: invokeAll ((mapGet m k).getD []) k a)
          = (k, a) :: emitsOf (invokeAll ((mapGet m k).getD []) k a) from rfl,
        emitsOf_invokeAll]

theorem invokedIds_emitOuts (m : Listeners) (k : Json) (a : Option Json) :
    invokedIds (emitOuts m k a) = ((mapGet m k).getD []).map Callback.id := by
  cases hm : mapHas m k
  · rw [emitOuts_eq_of_not_has a hm, mapGet_eq_none_of_not_has m k hm]; rfl
  · rw [emitOuts_eq_of_has a hm,
        show invokedIds (Out.emitEv k a :: invokeAll ((mapGet m k).getD []) k a)
          = invokedIds (invokeAll ((mapGet m k).getD []) k a) from rfl,
        invokedIds_invokeAll]

theorem scheduledDelays_emitOuts (m : Listeners) (k : Json) (a : Option Json) :
    scheduledDelays (emitOuts m k a) = [] := by
  cases hm : mapHas m k
  · rw [emitOuts_eq_of_not_has a hm]; rfl
  · rw [emitOuts_eq_of_has a hm,
        show scheduledDelays (Out.emitEv k a :: invokeAll ((mapGet m k).getD []) k a)
          = scheduledDelays (invokeAll ((mapGet m k).getD []) k a) from rfl,
        scheduledDelays_invokeAll]

theorem createdCount_emitOuts (m : Listeners) (k : Json) (a : Option Json) :
    createdCount (emitOuts m k a) = 0 := by
  cases hm : mapHas m k
  · rw [emitOuts_eq_of_not_has a hm]; rfl
  · rw [emitOuts_eq_of_has a hm, createdCount, List.countP_eq_zero]
    intro o ho
    rcases List.mem_cons.mp ho with rfl | ho
    · simp
    · rcases mem_invokeAll ho with ⟨cb, rfl⟩ | ⟨i, rfl⟩ <;> simp

theorem countEmit_emitOuts (m : Listeners) (k k' : Json) (a : Option Json) :
    countEmit (emitOuts m k a) k' = if keyEq k k' then 1 else 0 := by
  simp [countEmit, emitsOf_emitOuts, List.countP_cons]

/-! Lemmas about the listeners Map. -/

theorem lookupKey_mapSet_self (m : Listeners) (k : Json) (v : List Callback)
    (hk : keyEq k k = true) : lookupKey (mapSet m k v) k = some v := by
  induction m with
  | nil => simp [mapSet, lookupKey, hk]
  | cons p rest ih =>
      obtain ⟨k', v'⟩ := p
      cases hkk : keyEq k' k <;> simp [mapSet, lookupKey, hkk, hk, ih]

theorem mapGet_onMap_self (m : Listeners) (k : Json) (cb : Callback)
    (hk : keyEq k k = true) :
    mapGet (onMap m k cb) k = some ((mapGet m k).getD [] ++ [cb]) := by
  unfold onMap
  cases hm : mapHas m k
  · have h0 : mapGet m k = none := mapGet_eq_none_of_not_has m k hm
    have h1 : mapGet (mapSet m k []) k = some [] := lookupKey_mapSet_self m k [] hk
    simp only [hm, Bool.false_eq_true, if_false, h1, h0]
    exact lookupKey_mapSet_self _ _ _ hk
  · simp only [hm, if_true]
    exact lookupKey_mapSet_self m k _ hk

/-! Step equations for the transport-signal handlers. -/

theorem step_sigClose_of_lt {s : WS}
    (h : s.reconnectAttempts < s.maxReconnectAttempts) :
    step s Action.sigClose =
      ({ s with ws := s.ws.map (fun _ => ReadyState.CLOSED),
                reconnectAttempts := s.reconnectAttempts + 1,
                pending := s.pending ++ [s.reconnectDelay * (s.reconnectAttempts + 1)] },
       emitOuts s.listeners (Json.str "disconnected") none
         ++ [Out.scheduled (s.reconnectDelay * (s.reconnectAttempts + 1))]) := by
  simp [step, attemptReconnect, h]

theorem step_sigClose_of_ge {s : WS}
    (h : ¬ s.reconnectAttempts < s.maxReconnectAttempts) :
    step s Action.sigClose =
      ({ s with ws := s.ws.map (fun _ => ReadyState.CLOSED) },
       emitOuts s.listeners (Json.str "disconnected") none
         ++ emitOuts s.listeners (Json.str "maxReconnectAttemptsReached") none) := by
  simp [step, attemptReconnect, h]

theorem step_sigOpen_eq (s : WS) :
    step s Action.sigOpen =
      ({ s with ws := s.ws.map (fun _ => ReadyState.OPEN), reconnectAttempts := 0 },
       emitOuts s.listeners (Json.str "connected") none) := by
  simp [step]

/-- Canonical failing run: an initial connect and five scheduled retries, each
of which fails with an involuntary close, followed by a sixth close. -/
def failLoop : List Action :=
  [Action.connect, Action.sigClose, Action.timerFire, Action.sigClose, Action.timerFire,
   Action.sigClose, Action.timerFire, Action.sigClose, Action.timerFire,
   Action.sigClose, Action.timerFire, Action.sigClose]

/-- A client state whose attempt counter has reached the ceiling. -/
def maxedWS : WS := { initWS with reconnectAttempts := 5 }

/-- C1: on each involuntary close signal with the attempt counter strictly
below the ceiling, the counter is incremented and exactly one connect() retry
is scheduled after reconnectDelay times the incremented counter — for the
canonical failing run from a fresh client (base delay 1000, ceiling 5) the
scheduled delays are exactly 1000, 2000, 3000, 4000, 5000 ms; once the counter
has reached the ceiling, maxReconnectAttemptsReached is emitted exactly once
for that close and no further retry is scheduled, and over the whole canonical
run the event is emitted exactly once with no pending timer left. -/
theorem c1_reconnect_backoff :
    (∀ s : WS, s.reconnectAttempts < s.maxReconnectAttempts →
        (step s Action.sigClose).1.reconnectAttempts = s.reconnectAttempts + 1 ∧
        scheduledDelays (step s Action.sigClose).2
          = [s.reconnectDelay * (s.reconnectAttempts + 1)] ∧
        (step s Action.sigClose).1.pending
          = s.pending ++ [s.reconnectDelay * (s.reconnectAttempts + 1)] ∧
        countEmit (step s Action.sigClose).2
          (Json.str "maxReconnectAttemptsReached") = 0) ∧
    (∀ s : WS, ¬ s.reconnectAttempts < s.maxReconnectAttempts →
        scheduledDelays (step s Action.sigClose).2 = [] ∧
        (step s Action.sigClose).1.pending = s.pending ∧
        countEmit (step s Action.sigClose).2
          (Json.str "maxReconnectAttemptsReached") = 1) ∧
    scheduledDelays (run initWS failLoop).2 = [1000, 2000, 3000, 4000, 5000] ∧
    countEmit (run initWS failLoop).2 (Json.str "maxReconnectAttemptsReached") = 1 ∧
    (run initWS failLoop).1.pending = [] := by
  refine ⟨fun s h => ?_, fun s h => ?_, by decide, by decide, by decide⟩
  · rw [step_sigClose_of_lt h]
    refine ⟨rfl, ?_, rfl, ?_⟩
    · rw [scheduledDelays_append, scheduledDelays_emitOuts]; rfl
    · rw [countEmit_append, countEmit_emitOuts,
          show countEmit [Out.scheduled (s.reconnectDelay * (s.reconnectAttempts + 1))]
            (Json.str "maxReconnectAttemptsReached") = 0 from rfl]
      decide
  · rw [step_sigClose_of_ge h]
    refine ⟨?_, rfl, ?_⟩
    · rw [scheduledDelays_append, scheduledDelays_emitOuts, scheduledDelays_emitOuts]
      rfl
    · rw [countEmit_append, countEmit_emitOuts, countEmit_emitOuts]
      decide

/-- Witness for C1: a fresh client is below the ceiling and its close
increments the counter to 1; a maxed-out client schedules no retry. -/
theorem c1_reconnect_backoff_witness :
    (initWS.reconnectAttempts < initWS.maxReconnectAttempts ∧
      (step initWS Action.sigClose).1.reconnectAttempts = 1) ∧
    (¬ maxedWS.reconnectAttempts < maxedWS.maxReconnectAttempts ∧
      scheduledDelays (step maxedWS Action.sigClose).2 = []) :=
  ⟨⟨by decide, (c1_reconnect_backoff.1 initWS (by decide)).1⟩,
   ⟨by decide, (c1_reconnect_backoff.2.1 maxedWS (by decide)).1⟩⟩

/-! Run equations. -/

theorem run_nil (s : WS) : run s [] = (s, []) := rfl

theorem run_cons (s : WS) (a : Action) (rest : List Action) :
    run s (a :: rest)
      = ((run (step s a).1 rest).1, (step s a).2 ++ (run (step s a).1 rest).2) := rfl

theorem scheduledDelays_singleton (d : Nat) :
    scheduledDelays [Out.scheduled d] = [d] := rfl

theorem createdCount_scheduled (d : Nat) :
    createdCount [Out.scheduled d] = 0 := rfl

theorem createdCount_created : createdCount [Out.created] = 1 := rfl

theorem step_timerFire_outs {s : WS} (h : s.pending ≠ []) :
    (step s Action.timerFire).2 = [Out.created] := by
  cases hq : s.pending with
  | nil => exact absurd hq h
  | cons q qs => simp [step, connectFn, hq]

/-- State reached by connect, a successful open, then an explicit
disconnect: the transport reference is discarded but the discarded transport
is still closing and will deliver a close signal. -/
def afterDisconnect : WS :=
  (run initWS [Action.connect, Action.sigOpen, Action.disconnect]).1

/-- State reached by connect and a successful open. -/
def openWS : WS :=
  (run initWS [Action.connect, Action.sigOpen]).1

/-- C2 counterexample: after an explicit disconnect() from the Open state, the
close signal delivered by the closing transport still schedules a 1000 ms
reconnect retry, and when that timer fires connect() is invoked — the claimed
suppression of automatic reconnection does not hold. -/
theorem c2_disconnect_counterexample :
    afterDisconnect.ws = none ∧
    scheduledDelays (step afterDisconnect Action.sigClose).2 = [1000] ∧
    createdCount (run afterDisconnect [Action.sigClose, Action.timerFire]).2 = 1 := by
  decide

/-- C2 (amended): disconnect() closes the transport when one is present and
discards the reference, is a no-op when already disconnected, and is
idempotent from any state; but it does not suppress reconnection — the close
signal that the closing transport still delivers runs the unchanged
reconnection policy, so while the counter is below the ceiling a retry is
scheduled and the timer invokes connect() again. -/
theorem c2_disconnect_behavior :
    (∀ s : WS, s.ws ≠ none →
        step s Action.disconnect = ({ s with ws := none }, [Out.closedT])) ∧
    (∀ s : WS, s.ws = none → step s Action.disconnect = (s, [])) ∧
    (∀ s : WS, step (step s Action.disconnect).1 Action.disconnect
        = ((step s Action.disconnect).1, [])) ∧
    (∀ s : WS, s.ws = none → s.reconnectAttempts < s.maxReconnectAttempts →
        scheduledDelays (step s Action.sigClose).2
          = [s.reconnectDelay * (s.reconnectAttempts + 1)] ∧
        createdCount (run s [Action.sigClose, Action.timerFire]).2 = 1) := by
  refine ⟨fun s h => ?_, fun s h => ?_, fun s => ?_, fun s h hlt => ?_⟩
  · cases hw : s.ws with
    | none => exact absurd hw h
    | some rs => simp [step, hw]
  · simp [step, h]
  · cases hw : s.ws <;> simp [step, hw]
  · refine ⟨?_, ?_⟩
    · rw [step_sigClose_of_lt hlt, scheduledDelays_append, scheduledDelays_emitOuts]
      rfl
    · rw [run_cons, run_cons, run_nil, step_sigClose_of_lt hlt,
          List.append_nil, createdCount_append, createdCount_append,
          createdCount_emitOuts, createdCount_scheduled,
          step_timerFire_outs (by simp), createdCount_created]

/-- Witness for C2 (amended) at concrete states: an open client, a fresh
client, and the state reached right after an explicit disconnect. -/
theorem c2_disconnect_behavior_witness :
    step openWS Action.disconnect = ({ openWS with ws := none }, [Out.closedT]) ∧
    step initWS Action.disconnect = (initWS, []) ∧
    scheduledDelays (step afterDisconnect Action.sigClose).2 = [1000] :=
  ⟨c2_disconnect_behavior.1 openWS (by decide),
   c2_disconnect_behavior.2.1 initWS rfl,
   (c2_disconnect_behavior.2.2.2 afterDisconnect rfl (by decide)).1⟩

/-- C3 counterexample: with a transport already open, a second connect() call
instantiates a second transport (two transports created over the run) instead
of being a no-op. -/
theorem c3_connect_counterexample :
    (run initWS [Action.connect, Action.sigOpen]).1.ws = some ReadyState.OPEN ∧
    createdCount (run initWS [Action.connect, Action.sigOpen, Action.connect]).2 = 2 := by
  decide

/-- C3 (amended): connect() unconditionally instantiates a new transport and
overwrites this.ws with it — also when the state is already Connecting or
Open — and never closes the previous transport (no closedT effect). -/
theorem c3_connect_unconditional :
    ∀ s : WS, step s Action.connect
      = ({ s with ws := some ReadyState.CONNECTING }, [Out.created]) :=
  fun _ => rfl

/-- C4: a transport-open signal resets the attempt counter to 0 and dispatches
exactly one synthetic connected event, leaving the registry unchanged;
consequently the next involuntary close schedules the first backoff delay
again (base delay times 1), concretely 1000 ms after two failed attempts
followed by a successful open on a fresh client. -/
theorem c4_open_resets_backoff :
    (∀ s : WS, (step s Action.sigOpen).1.reconnectAttempts = 0 ∧
        emitsOf (step s Action.sigOpen).2 = [(Json.str "connected", none)] ∧
        (step s Action.sigOpen).1.listeners = s.listeners) ∧
    (∀ s : WS, 0 < s.maxReconnectAttempts →
        scheduledDelays (step (step s Action.sigOpen).1 Action.sigClose).2
          = [s.reconnectDelay * 1]) ∧
    scheduledDelays (step (run initWS [Action.connect, Action.sigClose,
        Action.timerFire, Action.sigClose, Action.timerFire,
        Action.sigOpen]).1 Action.sigClose).2 = [1000] := by
  refine ⟨fun s => ?_, fun s h => ?_, by decide⟩
  · rw [step_sigOpen_eq]
    exact ⟨rfl, by rw [emitsOf_emitOuts], rfl⟩
  · have h2 : (step s Action.sigOpen).1.reconnectAttempts
        < (step s Action.sigOpen).1.maxReconnectAttempts := by
      rw [step_sigOpen_eq]; simpa using h
    rw [step_sigClose_of_lt h2, scheduledDelays_append, scheduledDelays_emitOuts,
        scheduledDelays_singleton]
    simp [step_sigOpen_eq]

/-- Witness for C4 at the fresh client. -/
theorem c4_open_resets_backoff_witness :
    0 < initWS.maxReconnectAttempts ∧
    scheduledDelays (step (step initWS Action.sigOpen).1 Action.sigClose).2 = [1000] :=
  ⟨by decide, c4_open_resets_backoff.2.1 initWS (by decide)⟩

/-- Listener observing generic message events in the C5 counterexample. -/
def cbMessage : Callback := ⟨1, false⟩

/-- Listener registered under the empty-string event name. -/
def cbEmpty : Callback := ⟨2, false⟩

/-- A frame that carries a type field holding the empty string. -/
def emptyTypeFrame : Json := Json.obj [("type", Json.str ""), ("data", Json.num 7)]

/-- C5 counterexample: a successfully parsed frame whose `type` field holds
the empty string dispatches the generic message event but no second event
under that literal type name — `if (data.type)` is a truthiness test and the
empty string is falsy — so a listener registered under the empty-string name
is never invoked, refuting the claimed if-and-only-if on carrying a type
field. -/
theorem c5_typed_dispatch_counterexample :
    jsGet emptyTypeFrame "type" = some (Json.str "") ∧
    countEmit (step (run initWS [Action.on "message" cbMessage,
        Action.on "" cbEmpty]).1 (Action.sigMessage (some emptyTypeFrame))).2
      (Json.str "message") = 1 ∧
    countEmit (step (run initWS [Action.on "message" cbMessage,
        Action.on "" cbEmpty]).1 (Action.sigMessage (some emptyTypeFrame))).2
      (Json.str "") = 0 ∧
    invokedIds (step (run initWS [Action.on "message" cbMessage,
        Action.on "" cbEmpty]).1 (Action.sigMessage (some emptyTypeFrame))).2
      = [1] :=
  ⟨rfl, by decide, by decide, by decide⟩

/-- C5 (amended): every successfully parsed frame produces exactly one generic
message emit carrying the full decoded payload, followed — if and only if the
payload carries a truthy type field (present and not null, false, 0 or the
empty string) — by exactly one further emit keyed by that type value with the
payload's data field as argument, in that order; the client state is
unchanged. -/
theorem c5_typed_dispatch :
    ∀ (s : WS) (d : Json),
      (step s (Action.sigMessage (some d))).1 = s ∧
      emitsOf (step s (Action.sigMessage (some d))).2
        = (Json.str "message", some d) ::
          (match jsGet d "type" with
           | some t => if truthy t then [(t, jsGet d "data")] else []
           | none => []) := by
  intro s d
  refine ⟨rfl, ?_⟩
  cases ht : jsGet d "type" with
  | none => simp [step, ht, emitsOf_append, emitsOf_emitOuts]
  | some t =>
      cases htr : truthy t <;>
        simp [step, ht, htr, emitsOf_append, emitsOf_emitOuts]

/-- C6: send(payload) with the transport absent or not OPEN performs no
transmission and no queueing, produces one console warning and no exception,
and leaves the state unchanged; with the transport OPEN it transmits the JSON
serialization of the payload. -/
theorem c6_send_contract :
    ∀ (s : WS) (d : Json),
      (step s (Action.send d)).1 = s ∧
      (s.ws = some ReadyState.OPEN →
        (step s (Action.send d)).2 = [Out.wireSent (stringify d)]) ∧
      (s.ws ≠ some ReadyState.OPEN →
        (step s (Action.send d)).2 = [Out.warned]) := by
  intro s d
  refine ⟨?_, fun h => ?_, fun h => ?_⟩
  · by_cases h : s.ws = some ReadyState.OPEN <;> simp [step, h]
  · simp [step, h]
  · simp [step, h]

/-- Witness for C6: an open client transmits, a fresh client only warns. -/
theorem c6_send_contract_witness :
    (openWS.ws = some ReadyState.OPEN ∧
      (step openWS (Action.send Json.null)).2
        = [Out.wireSent (stringify Json.null)]) ∧
    (initWS.ws ≠ some ReadyState.OPEN ∧
      (step initWS (Action.send Json.null)).2 = [Out.warned]) :=
  ⟨⟨by decide, (c6_send_contract openWS Json.null).2.1 (by decide)⟩,
   ⟨by decide, (c6_send_contract initWS Json.null).2.2 (by decide)⟩⟩

/-- C7: a frame that fails to parse yields only a console error: zero emit
calls, zero subscriber invocations, no exception, and the client state —
including an Open transport — is unchanged. -/
theorem c7_malformed_frame :
    ∀ s : WS,
      step s (Action.sigMessage none) = (s, [Out.parseError]) ∧
      emitsOf (step s (Action.sigMessage none)).2 = [] ∧
      invokedIds (step s (Action.sigMessage none)).2 = [] :=
  fun _ => ⟨rfl, rfl, rfl⟩

/-- C8: emit invokes every callback registered under the event key, in
registration order, independently of each callback's throwing behaviour;
a raised exception is converted to a logged error effect, later callbacks
still run, and emit always returns (it is a total function). Concretely, a
throwing callback between two others leaves all three invoked in order with
exactly one logged callback error. -/
theorem c8_emit_isolation :
    (∀ (m : Listeners) (k : Json) (a : Option Json),
        invokedIds (emitOuts m k a) = ((mapGet m k).getD []).map Callback.id) ∧
    invokedIds (emitOuts [(Json.str "e", [⟨1, false⟩, ⟨2, true⟩, ⟨3, false⟩])]
        (Json.str "e") none) = [1, 2, 3] ∧
    emitOuts [(Json.str "e", [⟨1, false⟩, ⟨2, true⟩, ⟨3, false⟩])]
        (Json.str "e") none
      = [Out.emitEv (Json.str "e") none, Out.invoked 1 (Json.str "e") none,
         Out.invoked 2 (Json.str "e") none, Out.cbError 2,
         Out.invoked 3 (Json.str "e") none] :=
  ⟨invokedIds_emitOuts, by decide, rfl⟩

theorem mapGet_offMap {m2 : Listeners} {k : Json} {cbs : List Callback}
    {cb : Callback} (hk : keyEq k k = true) (h2 : mapGet m2 k = some cbs)
    (hmem : cb ∈ cbs) :
    mapGet (offMap m2 k cb) k = some (cbs.erase cb) := by
  have hh : mapHas m2 k = true := by
    unfold mapHas
    rw [show lookupKey m2 k = some cbs from h2]
    rfl
  have hcbs : (mapGet m2 k).getD [] = cbs := by rw [h2]; rfl
  unfold offMap
  simp only [hh, if_true, hcbs, hmem, ite_true]
  exact lookupKey_mapSet_self m2 k _ hk

/-- C9: registering the same callback twice under one event name keeps both
registrations and yields two invocations on each dispatch of that event; off
removes only the first structurally-equal match, after which one registration
remains and exactly one invocation occurs on the next dispatch. -/
theorem c9_double_registration :
    ∀ (m : Listeners) (e : String) (cb : Callback) (a : Option Json),
      cb ∉ (mapGet m (Json.str e)).getD [] →
      mapGet (onMap (onMap m (Json.str e) cb) (Json.str e) cb) (Json.str e)
        = some ((mapGet m (Json.str e)).getD [] ++ [cb, cb]) ∧
      invokedIds (emitOuts (onMap (onMap m (Json.str e) cb) (Json.str e) cb)
          (Json.str e) a)
        = ((mapGet m (Json.str e)).getD []).map Callback.id ++ [cb.id, cb.id] ∧
      mapGet (offMap (onMap (onMap m (Json.str e) cb) (Json.str e) cb)
          (Json.str e) cb) (Json.str e)
        = some ((mapGet m (Json.str e)).getD [] ++ [cb]) ∧
      invokedIds (emitOuts (offMap (onMap (onMap m (Json.str e) cb)
          (Json.str e) cb) (Json.str e) cb) (Json.str e) a)
        = ((mapGet m (Json.str e)).getD []).map Callback.id ++ [cb.id] := by
  intro m e cb a hnot
  have hk : keyEq (Json.str e) (Json.str e) = true := by simp [keyEq]
  have h1 := mapGet_onMap_self m (Json.str e) cb hk
  have h2 := mapGet_onMap_self (onMap m (Json.str e) cb) (Json.str e) cb hk
  rw [h1] at h2
  have h2' : mapGet (onMap (onMap m (Json.str e) cb) (Json.str e) cb) (Json.str e)
      = some ((mapGet m (Json.str e)).getD [] ++ [cb, cb]) := by
    rw [h2]; simp
  have herase : (((mapGet m (Json.str e)).getD []) ++ [cb, cb]).erase cb
      = (mapGet m (Json.str e)).getD [] ++ [cb] := by
    rw [List.erase_append_right _ hnot, List.erase_cons_head]
  have hmem : cb ∈ ((mapGet m (Json.str e)).getD []) ++ [cb, cb] := by simp
  have h3 := mapGet_offMap hk h2' hmem
  rw [herase] at h3
  refine ⟨h2', ?_, h3, ?_⟩
  · rw [invokedIds_emitOuts, h2']
    simp
  · rw [invokedIds_emitOuts, h3]
    simp

/-- Witness for C9 at the empty registry with a concrete callback. -/
theorem c9_double_registration_witness :
    ((⟨5, false⟩ : Callback) ∉ (mapGet ([] : Listeners) (Json.str "x")).getD []) ∧
    invokedIds (emitOuts (onMap (onMap ([] : Listeners) (Json.str "x") ⟨5, false⟩)
        (Json.str "x") ⟨5, false⟩) (Json.str "x") none) = [5, 5] :=
  ⟨by decide,
   (c9_double_registration [] "x" ⟨5, false⟩ none (by decide)).2.1⟩

/-- C10: emit for an event key with no registry entry performs the bare emit
call with zero invocations and no error; off for a missing entry, or with a
callback never registered under the name, is a harmless no-op leaving the
registry and the whole client state (connection included) unchanged. -/
theorem c10_noop_safety :
    (∀ (m : Listeners) (k : Json) (a : Option Json), mapHas m k = false →
        emitOuts m k a = [Out.emitEv k a] ∧ invokedIds (emitOuts m k a) = []) ∧
    (∀ (s : WS) (e : String) (cb : Callback),
        mapHas s.listeners (Json.str e) = false →
        step s (Action.off e cb) = (s, [])) ∧
    (∀ (s : WS) (e : String) (cb : Callback),
        cb ∉ (mapGet s.listeners (Json.str e)).getD [] →
        step s (Action.off e cb) = (s, [])) := by
  refine ⟨fun m k a h => ?_, fun s e cb h => ?_, fun s e cb h => ?_⟩
  · exact ⟨emitOuts_eq_of_not_has a h,
      by rw [invokedIds_emitOuts, mapGet_eq_none_of_not_has m k h]; rfl⟩
  · simp [step, offMap, h]
  · cases hm : mapHas s.listeners (Json.str e)
    · simp [step, offMap, hm]
    · simp [step, offMap, hm, h]

/-- Witness for C10 at the fresh client's empty registry. -/
theorem c10_noop_safety_witness :
    (mapHas ([] : Listeners) (Json.str "x") = false ∧
      emitOuts [] (Json.str "x") none = [Out.emitEv (Json.str "x") none]) ∧
    step initWS (Action.off "x" ⟨9, false⟩) = (initWS, []) :=
  ⟨⟨rfl, (c10_noop_safety.1 [] (Json.str "x") none rfl).1⟩,
   c10_noop_safety.2.1 initWS "x" ⟨9, false⟩ rfl⟩

end Api
